import Mathlib

/-!
Verification of the BLE connection-manager and PPG-streaming core of
`src/main.py` (FastAPI BLE Scanner API), as a shallow embedding in Lean 4.

The Python code is asynchronous and talks to an external radio stack
(bleak).  We embed it with explicit state passing:

* the registry `BLEConnectionManager._connections` becomes an association
  list from addresses to `ManagedConnection` records;
* every call into the external radio stack (the result of
  `client.connect()`, the liveness query `client.is_connected`, the result
  of `client.disconnect()`) becomes an explicit oracle field of an
  environment record, since those results are decided by hardware, not by
  this code;
* Python exceptions become `Except` values, `None` becomes `Option`.

All definitions are translated from `src/main.py`; line references are
given at each definition.
-/

set_option maxRecDepth 8000

namespace BLEApi

/-- Python truthiness of an optional string (`name or other`):
`None` and `""` are falsy. -/
def pyOrStr (a b : Option String) : Option String :=
  match a with
  | none => b
  | some s => if s = "" then b else some s

/-- Record `ManagedConnection` (main.py lines 102-112).  The `client` object and
the `asyncio.Lock` are not data; the client's behaviour is an oracle of
each operation's environment, so only `last_name` remains as state. -/
structure ManagedConnection where
  last_name : Option String
deriving Repr, DecidableEq

/-- The manager's `_connections` dict (main.py line 123):
address -> ManagedConnection, keys unique. -/
abbrev Registry := List (String × ManagedConnection)

/-- Dict lookup `self._connections.get(address)`. -/
def Registry.get (st : Registry) (address : String) : Option ManagedConnection :=
  List.lookup address st

/-- Dict removal `self._connections.pop(address, None)`. -/
def Registry.popKey (st : Registry) (address : String) : Registry :=
  st.filter (fun p => p.1 ≠ address)

/-- In-place mutation `managed.last_name = name or managed.last_name`
for the entry at `address`. -/
def Registry.setLastName (st : Registry) (address : String) (name : Option String) : Registry :=
  st.map (fun p =>
    if p.1 = address then (p.1, ⟨pyOrStr name p.2.last_name⟩) else p)

/-- Method `get_connections` (main.py lines 144-147): the list of registered
addresses (`list(self._connections.keys())`). -/
def get_connections (st : Registry) : List String :=
  st.map Prod.fst

/-- External-world outcomes seen by one `connect_persistent` call. -/
structure ConnectEnv where
  /-- result of the `is_connected` liveness query made before connecting
  (main.py line 171); `is_connected` returns `False` on a query error,
  so a `Bool` suffices. -/
  connected_before : Bool
  /-- outcome of `await managed.client.connect()` (main.py line 176):
  `.ok ()` or a raised exception rendered as a message. -/
  connect_result : Except String Unit
  /-- result of the `is_connected` re-query after a successful connect
  (main.py line 184). -/
  connected_after : Bool
deriving Repr

/-- Method `BLEConnectionManager.connect_persistent` (main.py lines 149-184).
Returns the propagated exception or the returned boolean, together with
the registry afterwards.

1. Under the global lock, fetch or create the entry (lines 160-166;
   dict insertion of a fresh key).
2. Under the device lock, if already connected: update `last_name` and
   return `True` (lines 171-173).
3. Otherwise call `connect()`; on failure pop the entry and re-raise
   (lines 175-182); on success update `last_name` and return the
   re-queried liveness (lines 177, 184). -/
def connect_persistent (st : Registry) (address : String) (name : Option String)
    (env : ConnectEnv) : Except String Bool × Registry :=
  let st1 : Registry :=
    match st.get address with
    | none => (address, ⟨name⟩) :: st
    | some _ => st
  if env.connected_before then
    (Except.ok true, st1.setLastName address name)
  else
    match env.connect_result with
    | Except.error e => (Except.error e, st1.popKey address)
    | Except.ok _ => (Except.ok env.connected_after, st1.setLastName address name)

/-- External-world outcomes seen by one `disconnect` call. -/
structure DisconnectEnv where
  /-- result of the `is_connected` query capturing prior state
  (main.py line 198). -/
  connected_before : Bool
  /-- whether `await managed.client.disconnect()` raised
  (main.py lines 199-203); the exception is swallowed either way. -/
  disconnect_raises : Bool
deriving Repr, DecidableEq

/-- Method `BLEConnectionManager.disconnect` (main.py lines 186-208).
No entry: return `False` untouched.  Otherwise capture prior liveness,
attempt the underlying disconnect with any exception swallowed
(lines 199-203), unconditionally pop the entry (lines 205-206) and
return the captured prior state (line 208).  Total: never raises. -/
def disconnect (st : Registry) (address : String) (env : DisconnectEnv) :
    Bool × Registry :=
  match st.get address with
  | none => (false, st)
  | some _ => (env.connected_before, st.popKey address)

/-! ### Discovery, matching and ranking (main.py lines 242-346) -/

/-- A device object as returned by `BleakScanner.discover`, before any
filtering: `getattr(d, "address", None)` may be `None` (attribute may be
missing), name and rssi optional. -/
structure RawScanDevice where
  name : Option String
  address : Option String
  rssi : Option Int
deriving Repr, DecidableEq

/-- Response model `BLEDeviceOut` (main.py lines 25-29). -/
structure BLEDeviceOut where
  name : Option String
  address : String
  rssi : Option Int
deriving Repr, DecidableEq

/-- The loop of `scan_ble` (main.py lines 257-275): walk the discover
results carrying the `seen` set; a device with no address, an empty
address (Python `not addr`) or an already-seen address is skipped;
otherwise it is emitted (with `name=d.name or None`) and its address
recorded in `seen`. -/
def scan_loop : List RawScanDevice → List String → List BLEDeviceOut
  | [], _ => []
  | d :: rest, seen =>
    match d.address with
    | none => scan_loop rest seen
    | some addr =>
      if addr = "" ∨ addr ∈ seen then scan_loop rest seen
      else { name := pyOrStr d.name none, address := addr, rssi := d.rssi } ::
        scan_loop rest (addr :: seen)

/-- Endpoint `scan_ble` (main.py lines 242-275), as a function of the
devices the adapter's discover call returned: dedups by address with the
`seen` set starting empty. -/
def scan_ble (devices : List RawScanDevice) : List BLEDeviceOut :=
  scan_loop devices []

/-- A discovered device after the address filter, as consumed by the
name-matching endpoints: `address` is a definite string. -/
structure BLEDevice where
  name : Option String
  address : String
  rssi : Option Int
deriving Repr, DecidableEq

/-- Python `str.lower()`: lower-case every character. -/
def pyLower (s : String) : String :=
  ⟨s.data.map Char.toLower⟩

/-- Python `str.strip()`: drop leading and trailing whitespace. -/
def pyStrip (s : String) : String :=
  ⟨((s.data.dropWhile Char.isWhitespace).reverse.dropWhile
      Char.isWhitespace).reverse⟩

/-- Name normalisation used on both sides of the comparison
(main.py lines 290, 294, 328, 333): `.strip().lower()`. -/
def normName (s : String) : String :=
  pyLower (pyStrip s)

/-- Result of `get_addresses_by_name`: either `BLEDevicesFound`
(main.py lines 32-35) or `BLEDeviceNotFound` (lines 44-46); the union
return type keeps the two outcomes distinct. -/
inductive FindByNameResult where
  | found (name : String) (addresses : List String)
  | notFound (message : String)
deriving Repr, DecidableEq

/-- Endpoint `get_addresses_by_name` (main.py lines 278-301), as a
function of the scan result: keep the addresses of devices with
`(d.name or "").strip().lower() == name.strip().lower()`; an empty
match list becomes the distinct not-found outcome. -/
def get_addresses_by_name (name : String) (devices : List BLEDevice) :
    FindByNameResult :=
  let target := normName name
  let addresses :=
    (devices.filter (fun d => normName (d.name.getD "") = target)).map
      (fun d => d.address)
  if addresses.isEmpty then FindByNameResult.notFound "Dispositivo no encontrado"
  else FindByNameResult.found name addresses

/-- Function `rssi_sort_key` (main.py lines 342-344):
`(rssi is None, -(rssi if rssi is not None else -9999))`. -/
def rssi_sort_key (d : BLEDevice) : Bool × Int :=
  (d.rssi.isNone, -(d.rssi.getD (-9999)))

/-- Python tuple comparison `<=` on a `(bool, int)` key pair:
lexicographic, with `False < True`. -/
def tupleLe (a b : Bool × Int) : Bool :=
  if a.1 = b.1 then decide (a.2 ≤ b.2) else !a.1

/-- Comparison induced by `key=rssi_sort_key` in `matches.sort(...)`
(main.py line 346). -/
def rssiLe (a b : BLEDevice) : Bool :=
  tupleLe (rssi_sort_key a) (rssi_sort_key b)

/-- Stable insertion of `x` into an ascending list: `x` is placed before
the first element it compares `le` to, hence after every earlier-inserted
element with an equal key. -/
def pyInsert (le : α → α → Bool) (x : α) : List α → List α
  | [] => [x]
  | y :: ys => if le x y then x :: y :: ys else y :: pyInsert le x ys

/-- Python's `list.sort` contract: an ascending stable sort by the
comparison `le` (equal-key elements keep their original relative order),
realised as a stable insertion sort. -/
def pyStableSort (le : α → α → Bool) : List α → List α
  | [] => []
  | x :: xs => pyInsert le x (pyStableSort le xs)

/-- Line `matches.sort(key=rssi_sort_key)` (main.py line 346). -/
def sort_matches (l : List BLEDevice) : List BLEDevice :=
  pyStableSort rssiLe l

/-! ### The connect-by-name orchestrator (main.py lines 310-381) -/

/-- Outcome of one `manager.connect_persistent` call as observed by the
orchestrator loop (main.py lines 355-373): the returned boolean, or a
raised exception with its type name and message. -/
inductive AttemptResult where
  | ok (connected : Bool)
  | raised (typeName message : String)
deriving Repr, DecidableEq

/-- Return value of `connect_persistent_by_name`, after the not-found
branch: `BLEConnectPersistentSuccess` (main.py lines 49-55, constructed
at lines 363-369) or `BLEConnectPersistentFailed` (lines 58-63,
constructed at lines 376-381). -/
inductive ConnectByNameResult where
  | success (message name address : String) (is_connected : Bool)
      (rssi : Option Int)
  | failed (message name : String) (attempted_addresses : List String)
      (errors : Option (List String))
deriving Repr, DecidableEq

/-- The error string a failed candidate contributes (main.py lines 371
and 373); a successful candidate contributes none. -/
def attempt_error (address : String) : AttemptResult → Option String
  | AttemptResult.ok true => none
  | AttemptResult.ok false => some (address ++ ": connect ok pero is_connected=False")
  | AttemptResult.raised t m => some (address ++ ": " ++ t ++ ": " ++ m)

/-- The candidate loop of `connect_persistent_by_name`
(main.py lines 348-381), with the per-candidate outcome supplied by the
oracle `attempt`.  Each candidate's address is recorded in
`attempted_addresses` before its attempt; the first `True` outcome
returns the success model immediately; a `False` outcome or an exception
appends its error string and moves on; exhaustion returns the failure
model with `errors=errors or None`.  The final `attempted_addresses`
list is returned alongside for observation. -/
def try_candidates (name : String) (attempt : BLEDevice → AttemptResult) :
    List BLEDevice → List String → List String →
      ConnectByNameResult × List String
  | [], attempted, errors =>
    (ConnectByNameResult.failed "No se pudo conectar a ningún dispositivo con ese nombre"
      name attempted (if errors.isEmpty then none else some errors), attempted)
  | dev :: rest, attempted, errors =>
    let attempted := attempted ++ [dev.address]
    match attempt dev with
    | AttemptResult.ok true =>
      (ConnectByNameResult.success "Conexión persistente establecida" name
        dev.address true dev.rssi, attempted)
    | AttemptResult.ok false =>
      try_candidates name attempt rest attempted
        (errors ++ [dev.address ++ ": connect ok pero is_connected=False"])
    | AttemptResult.raised t m =>
      try_candidates name attempt rest attempted
        (errors ++ [dev.address ++ ": " ++ t ++ ": " ++ m])

/-- Overall outcome of the endpoint, keeping the not-found branch
distinct (main.py lines 337-338). -/
inductive ConnectByNameOutcome where
  | notFound (message : String)
  | result (r : ConnectByNameResult)
deriving Repr, DecidableEq

/-- Endpoint `connect_persistent_by_name` (main.py lines 314-381) as a
function of the scan result and the per-candidate connect oracle:
filter by normalised name, return not-found on no match, otherwise rank
with `rssi_sort_key` and run the candidate loop. -/
def connect_persistent_by_name (name : String) (devices : List BLEDevice)
    (attempt : BLEDevice → AttemptResult) : ConnectByNameOutcome :=
  let target := normName name
  let matched := devices.filter (fun d => normName (d.name.getD "") = target)
  if matched.isEmpty then ConnectByNameOutcome.notFound "Dispositivo no encontrado"
  else ConnectByNameOutcome.result
    (try_candidates name attempt (sort_matches matched) [] []).1

/-! ### PPG sample decoding (main.py lines 463-473 and 526-527) -/

/-- Pairing of a byte list into unsigned 16-bit little-endian values:
each consecutive byte pair `lo, hi` becomes `lo + 256 * hi`, exactly the
element order `struct.unpack("<64H", raw)` produces. -/
def u16le_pairs : List Nat → List Nat
  | lo :: hi :: rest => (lo + 256 * hi) :: u16le_pairs rest
  | _ => []

/-- Decode step `struct.unpack("<64H", raw)` (main.py lines 467 and 527):
defined exactly on 128-byte payloads (64 values); any other length is a
`struct.error`, modelled as `none`. -/
def unpack_64H (raw : List Nat) : Option (List Nat) :=
  if raw.length = 128 then some (u16le_pairs raw) else none

/-! ### The streaming aggregation loop (main.py lines 478-580) -/

/-- Per-session aggregation state of `ws_ble_ppg`
(main.py lines 519-521): `last_arr`, `aggregated` (modelled as `[]`
while still `None`, it is only read after the first cycle seeds it) and
`prev_len`. -/
structure AggState where
  last_arr : Option (List Nat)
  aggregated : List Nat
  prev_len : Nat
deriving Repr, DecidableEq

/-- Initial state `last_arr = None, aggregated = None, prev_len = 0`
(main.py lines 519-521). -/
def ws_init : AggState :=
  { last_arr := none, aggregated := [], prev_len := 0 }

/-- One cycle of the `ws_ble_ppg` loop body after decoding `arr`
(main.py lines 529-563), with the external
`hrs_analysis_tools.add_new_data` passed in as `merge`.  Returns the new
state and the `new_samples` list sent this cycle: on the first cycle the
whole window, afterwards `aggregated[prev_len:]` of the merged buffer. -/
def ws_step (merge : List Nat → List Nat → List Nat → List Nat)
    (st : AggState) (arr : List Nat) : AggState × List Nat :=
  match st.last_arr with
  | none =>
    ({ last_arr := some arr, aggregated := arr, prev_len := arr.length }, arr)
  | some last =>
    let aggregated := merge st.aggregated last arr
    let new_segment := aggregated.drop st.prev_len
    ({ last_arr := some arr, aggregated := aggregated,
       prev_len := aggregated.length }, new_segment)

/-- How the `ws_ble_ppg` loop ended (main.py lines 568-580): the caller
closed the transport (`WebSocketDisconnect`), or some other exception
carrying its type name and message. -/
inductive LoopExit where
  | wsDisconnect
  | failure (typeName message : String)
deriving Repr, DecidableEq

/-- The exception handlers that end a streaming session
(main.py lines 568-580), returning the list of error payloads delivered
to the caller: a transport disconnect returns silently; any other
failure sends `{"error": "Type: msg"}` once, best effort — when that
send itself fails (`send_ok = false`) the error is swallowed.  The
function is total: the session always terminates normally. -/
def ws_exit_payloads (e : LoopExit) (send_ok : Bool) : List String :=
  match e with
  | LoopExit.wsDisconnect => []
  | LoopExit.failure t m => if send_ok then [t ++ ": " ++ m] else []

/-! ### Registry lemmas -/

theorem Registry.get_popKey_self (st : Registry) (address : String) :
    (st.popKey address).get address = none := by
  induction st with
  | nil => rfl
  | cons p rest ih =>
    obtain ⟨k, v⟩ := p
    by_cases h : k = address
    · simpa [Registry.popKey, List.filter_cons, h] using ih
    · simp only [Registry.popKey, List.filter_cons] at ih ⊢
      rw [if_pos (by simpa using h)]
      have hbeq : (address == k) = false := by
        simp [Ne.symm h]
      simp only [Registry.get, List.lookup, hbeq]
      exact ih

theorem Registry.not_mem_popKey (st : Registry) (address : String) :
    address ∉ get_connections (st.popKey address) := by
  intro h
  simp only [get_connections, Registry.popKey, List.mem_map] at h
  obtain ⟨p, hp, hpa⟩ := h
  have := List.of_mem_filter hp
  simp [hpa] at this

/-! ### C1: connect failure leaves no registry entry behind -/

/-- C1: if `connect_persistent` reaches the underlying connect call
(the prior liveness check was false) and that call raises, then the
exception is propagated to the caller and afterwards the registry holds
no entry for the address, so the address is absent from the
`get_connections` listing. -/
theorem C1_connect_persistent_failure_cleans_registry
    (st : Registry) (address : String) (name : Option String)
    (env : ConnectEnv) (e : String)
    (hlive : env.connected_before = false)
    (hconn : env.connect_result = Except.error e) :
    (connect_persistent st address name env).1 = Except.error e
    ∧ ((connect_persistent st address name env).2).get address = none
    ∧ address ∉ get_connections (connect_persistent st address name env).2 := by
  cases hg : st.get address with
  | none =>
    have h : connect_persistent st address name env
        = (Except.error e, Registry.popKey ((address, ⟨name⟩) :: st) address) := by
      simp [connect_persistent, hlive, hconn, hg]
    rw [h]
    exact ⟨rfl, Registry.get_popKey_self _ address, Registry.not_mem_popKey _ address⟩
  | some mc =>
    have h : connect_persistent st address name env
        = (Except.error e, Registry.popKey st address) := by
      simp [connect_persistent, hlive, hconn, hg]
    rw [h]
    exact ⟨rfl, Registry.get_popKey_self _ address, Registry.not_mem_popKey _ address⟩

/-- Witness for C1: a concrete failing connect on address `AA:BB`
against a registry already holding another address. -/
theorem C1_witness :
    (connect_persistent [("11:22", ⟨some "other"⟩)] "AA:BB" (some "PineTime")
        ⟨false, Except.error "BleakError: boom", false⟩).1
      = Except.error "BleakError: boom"
    ∧ ((connect_persistent [("11:22", ⟨some "other"⟩)] "AA:BB" (some "PineTime")
        ⟨false, Except.error "BleakError: boom", false⟩).2).get "AA:BB" = none
    ∧ "AA:BB" ∉ get_connections (connect_persistent [("11:22", ⟨some "other"⟩)]
        "AA:BB" (some "PineTime")
        ⟨false, Except.error "BleakError: boom", false⟩).2 :=
  C1_connect_persistent_failure_cleans_registry
    [("11:22", ⟨some "other"⟩)] "AA:BB" (some "PineTime")
    ⟨false, Except.error "BleakError: boom", false⟩ "BleakError: boom" rfl rfl

/-! ### C2: disconnect semantics -/

/-- C2: `disconnect` on an untracked address returns `false` and leaves
the registry unchanged; on a tracked address it returns the liveness
captured before the underlying disconnect attempt, removes the entry
unconditionally (the address is no longer tracked afterwards), and the
outcome is insensitive to whether the underlying disconnect raised —
that exception is swallowed. -/
theorem C2_disconnect_spec (st : Registry) (address : String) (env : DisconnectEnv) :
    (st.get address = none → disconnect st address env = (false, st))
    ∧ (st.get address ≠ none →
        (disconnect st address env).1 = env.connected_before
        ∧ ((disconnect st address env).2).get address = none
        ∧ address ∉ get_connections (disconnect st address env).2
        ∧ disconnect st address env
            = disconnect st address ⟨env.connected_before, !env.disconnect_raises⟩) := by
  constructor
  · intro h
    simp [disconnect, h]
  · intro h
    cases hg : st.get address with
    | none => exact absurd hg h
    | some mc =>
      have hd : disconnect st address env
          = (env.connected_before, st.popKey address) := by
        simp [disconnect, hg]
      have hd' : disconnect st address ⟨env.connected_before, !env.disconnect_raises⟩
          = (env.connected_before, st.popKey address) := by
        simp [disconnect, hg]
      rw [hd, hd']
      exact ⟨rfl, Registry.get_popKey_self _ address, Registry.not_mem_popKey _ address, rfl⟩

/-- Witness for C2: an untracked and a tracked concrete disconnect (the
latter with the underlying disconnect raising). -/
theorem C2_witness :
    disconnect ([] : Registry) "AA" ⟨true, true⟩ = (false, [])
    ∧ ((disconnect [("AA", ⟨some "PineTime"⟩)] "AA" ⟨true, true⟩).1 = true
       ∧ ((disconnect [("AA", ⟨some "PineTime"⟩)] "AA" ⟨true, true⟩).2).get "AA" = none
       ∧ "AA" ∉ get_connections (disconnect [("AA", ⟨some "PineTime"⟩)] "AA" ⟨true, true⟩).2
       ∧ disconnect [("AA", ⟨some "PineTime"⟩)] "AA" ⟨true, true⟩
           = disconnect [("AA", ⟨some "PineTime"⟩)] "AA" ⟨true, false⟩) :=
  ⟨(C2_disconnect_spec [] "AA" ⟨true, true⟩).1 rfl,
   (C2_disconnect_spec [("AA", ⟨some "PineTime"⟩)] "AA" ⟨true, true⟩).2 (by decide)⟩

/-! ### C6: streaming aggregation cycles -/

/-- C6: on the first cycle the aggregate is seeded with exactly the
decoded window, the whole window is reported as new samples and the
boundary marker becomes its length; on a later cycle whose merge call
only appends `tail` to the previous aggregate, the reported new samples
are exactly `tail` — the suffix from the old boundary marker, of length
`len(merged) - len(previous)` — the aggregate becomes the merged buffer
and the marker advances to its length; moreover every cycle
re-establishes the invariant `prev_len = len(aggregated)`. -/
theorem C6_ws_step_spec (merge : List Nat → List Nat → List Nat → List Nat) :
    (∀ w : List Nat, ws_step merge ws_init w
        = ({ last_arr := some w, aggregated := w, prev_len := w.length }, w))
    ∧ (∀ (st : AggState) (last w tail : List Nat),
        st.last_arr = some last →
        st.prev_len = st.aggregated.length →
        merge st.aggregated last w = st.aggregated ++ tail →
        (ws_step merge st w).2 = tail
        ∧ (ws_step merge st w).2.length
            = (merge st.aggregated last w).length - st.aggregated.length
        ∧ (ws_step merge st w).1.aggregated = st.aggregated ++ tail
        ∧ (ws_step merge st w).1.prev_len = (st.aggregated ++ tail).length)
    ∧ (∀ (st : AggState) (w : List Nat),
        (ws_step merge st w).1.prev_len = (ws_step merge st w).1.aggregated.length) := by
  refine ⟨fun w => rfl, ?_, ?_⟩
  · rintro ⟨la, agg, pl⟩ last w tail h1 h2 h3
    simp only at h1 h2 h3
    subst h1
    subst h2
    have e2 : (ws_step merge ⟨some last, agg, agg.length⟩ w).2 = tail := by
      show (merge agg last w).drop agg.length = tail
      rw [h3]
      exact List.drop_left agg tail
    have e1a : (ws_step merge ⟨some last, agg, agg.length⟩ w).1.aggregated
        = agg ++ tail := h3
    have e1p : (ws_step merge ⟨some last, agg, agg.length⟩ w).1.prev_len
        = (agg ++ tail).length := by
      show (merge agg last w).length = (agg ++ tail).length
      rw [h3]
    refine ⟨e2, ?_, e1a, e1p⟩
    rw [e2, h3]
    simp
  · rintro ⟨la, agg, pl⟩ w
    cases la <;> rfl

/-- Witness for C6: a first cycle on window `[5, 6]`, then a second
cycle where the merge appends the non-overlapping suffix `[3]`. -/
theorem C6_witness :
    ws_step (fun a _ n => a ++ n.drop 1) ws_init [5, 6]
      = ({ last_arr := some [5, 6], aggregated := [5, 6], prev_len := 2 }, [5, 6])
    ∧ ((ws_step (fun a _ n => a ++ n.drop 1) ⟨some [1, 2], [1, 2], 2⟩ [2, 3]).2 = [3]
       ∧ (ws_step (fun a _ n => a ++ n.drop 1) ⟨some [1, 2], [1, 2], 2⟩ [2, 3]).2.length
           = ((fun (a _ n : List Nat) => a ++ n.drop 1) [1, 2] [1, 2] [2, 3]).length
               - ([1, 2] : List Nat).length
       ∧ (ws_step (fun a _ n => a ++ n.drop 1) ⟨some [1, 2], [1, 2], 2⟩ [2, 3]).1.aggregated
           = [1, 2] ++ [3]
       ∧ (ws_step (fun a _ n => a ++ n.drop 1) ⟨some [1, 2], [1, 2], 2⟩ [2, 3]).1.prev_len
           = ([1, 2] ++ [3] : List Nat).length)
    ∧ (ws_step (fun a _ n => a ++ n.drop 1) ⟨none, [], 0⟩ [7]).1.prev_len
        = (ws_step (fun a _ n => a ++ n.drop 1) ⟨none, [], 0⟩ [7]).1.aggregated.length :=
  ⟨(C6_ws_step_spec (fun a _ n => a ++ n.drop 1)).1 [5, 6],
   (C6_ws_step_spec (fun a _ n => a ++ n.drop 1)).2.1
     ⟨some [1, 2], [1, 2], 2⟩ [1, 2] [2, 3] [3] rfl rfl rfl,
   (C6_ws_step_spec (fun a _ n => a ++ n.drop 1)).2.2 ⟨none, [], 0⟩ [7]⟩

/-! ### C9: session termination and error reporting -/

/-- C9: a session ended by a transport-level disconnect emits no error
payload; any other failure is reported at most once as a best-effort
final message, and not at all when that final send itself fails (the
send failure is swallowed); the handler always returns normally. -/
theorem C9_ws_exit_spec (e : LoopExit) (send_ok : Bool) :
    (e = LoopExit.wsDisconnect → ws_exit_payloads e send_ok = [])
    ∧ (ws_exit_payloads e send_ok).length ≤ 1
    ∧ (∀ t m, ws_exit_payloads (LoopExit.failure t m) false = []) := by
  refine ⟨?_, ?_, fun t m => rfl⟩
  · rintro rfl
    rfl
  · cases e with
    | wsDisconnect => simp [ws_exit_payloads]
    | failure t m => cases send_ok <;> simp [ws_exit_payloads]

/-- Witness for C9: a silent disconnect and a concrete failure with and
without a deliverable final message. -/
theorem C9_witness :
    ws_exit_payloads LoopExit.wsDisconnect true = []
    ∧ (ws_exit_payloads (LoopExit.failure "BleakError" "read failed") true).length ≤ 1
    ∧ ws_exit_payloads (LoopExit.failure "BleakError" "read failed") false = [] :=
  ⟨(C9_ws_exit_spec LoopExit.wsDisconnect true).1 rfl,
   (C9_ws_exit_spec (LoopExit.failure "BleakError" "read failed") true).2.1,
   (C9_ws_exit_spec (LoopExit.failure "BleakError" "read failed") false).2.2
     "BleakError" "read failed"⟩

/-! ### C5 and C10: sample decoding -/

theorem u16le_pairs_length : ∀ l : List Nat, (u16le_pairs l).length = l.length / 2
  | [] => rfl
  | [_] => by simp [u16le_pairs]
  | _ :: _ :: rest => by
    simp only [u16le_pairs, List.length_cons]
    rw [u16le_pairs_length rest]
    omega

theorem u16le_pairs_getD : ∀ (l : List Nat) (i : Nat), 2 * i + 1 < l.length →
    (u16le_pairs l).getD i 0 = l.getD (2 * i) 0 + 256 * l.getD (2 * i + 1) 0
  | [], _, h => by simp at h
  | [_], _, h => by
    simp only [List.length_cons, List.length_nil] at h
    omega
  | lo :: hi :: rest, 0, _ => rfl
  | lo :: hi :: rest, i + 1, h => by
    have h' : 2 * i + 1 < rest.length := by
      simp only [List.length_cons] at h
      omega
    have ih := u16le_pairs_getD rest i h'
    have e1 : 2 * (i + 1) = 2 * i + 1 + 1 := by omega
    rw [e1]
    simpa [u16le_pairs, List.getD_cons_succ] using ih

theorem u16le_pairs_bound : ∀ l : List Nat, (∀ b ∈ l, b < 256) →
    ∀ x ∈ u16le_pairs l, x < 65536
  | [], _, x, hx => by simp [u16le_pairs] at hx
  | [_], _, x, hx => by simp [u16le_pairs] at hx
  | lo :: hi :: rest, h, x, hx => by
    simp only [u16le_pairs, List.mem_cons] at hx
    rcases hx with rfl | hx
    · have hlo : lo < 256 := h lo (by simp)
      have hhi : hi < 256 := h hi (by simp)
      omega
    · exact u16le_pairs_bound rest (fun b hb => h b (by simp [hb])) x hx

/-- C5: decoding succeeds exactly on payloads of length 128; a
successful decode yields 64 values, element `i` being
`raw[2i] + 256 * raw[2i+1]` — the unsigned 16-bit little-endian values
in payload order; the 128-byte payload encoding the sequential values
0..63 decodes to `[0, 1, ..., 63]`, and a 127-byte payload is a decode
error. -/
theorem C5_unpack_64H_spec :
    (∀ raw : List Nat, (unpack_64H raw).isSome ↔ raw.length = 128)
    ∧ (∀ raw s, unpack_64H raw = some s →
        s.length = 64
        ∧ ∀ i, i < 64 →
            s.getD i 0 = raw.getD (2 * i) 0 + 256 * raw.getD (2 * i + 1) 0)
    ∧ unpack_64H ((List.range 64).flatMap (fun i => [i, 0])) = some (List.range 64)
    ∧ unpack_64H (List.replicate 127 0) = none := by
  refine ⟨?_, ?_, by decide, by decide⟩
  · intro raw
    by_cases h : raw.length = 128 <;> simp [unpack_64H, h]
  · intro raw s hs
    by_cases h : raw.length = 128
    · have hsval : s = u16le_pairs raw := by
        simp [unpack_64H, h] at hs
        exact hs.symm
      subst hsval
      refine ⟨by rw [u16le_pairs_length, h], ?_⟩
      intro i hi
      exact u16le_pairs_getD raw i (by omega)
    · simp [unpack_64H, h] at hs

/-- Witness for C5: a concrete 128-byte payload of byte value 7
everywhere, checked at index 3. -/
theorem C5_witness :
    (unpack_64H (List.replicate 128 7)).isSome
    ∧ (u16le_pairs (List.replicate 128 7)).length = 64
    ∧ (u16le_pairs (List.replicate 128 7)).getD 3 0
        = (List.replicate 128 7).getD 6 0 + 256 * (List.replicate 128 7).getD 7 0 :=
  ⟨(C5_unpack_64H_spec.1 (List.replicate 128 7)).mpr (by decide),
   (C5_unpack_64H_spec.2.1 (List.replicate 128 7) (u16le_pairs (List.replicate 128 7)) rfl).1,
   (C5_unpack_64H_spec.2.1 (List.replicate 128 7) (u16le_pairs (List.replicate 128 7)) rfl).2
     3 (by omega)⟩

/-- C10: every sample the system delivers from a decode — each element
of a successfully decoded read window, and each element of the
`new_samples` a first streaming cycle reports for a decoded window — is
an unsigned 16-bit value: a natural number below 65536 (hence in
0..65535 inclusive). -/
theorem C10_samples_uint16 :
    (∀ raw s, (∀ b ∈ raw, b < 256) → unpack_64H raw = some s →
        ∀ x ∈ s, x < 65536)
    ∧ (∀ (merge : List Nat → List Nat → List Nat → List Nat) raw s,
        (∀ b ∈ raw, b < 256) → unpack_64H raw = some s →
        ∀ x ∈ (ws_step merge ws_init s).2, x < 65536) := by
  have hcore : ∀ raw s, (∀ b ∈ raw, b < 256) → unpack_64H raw = some s →
      ∀ x ∈ s, x < 65536 := by
    intro raw s hb hs
    by_cases h : raw.length = 128
    · have hsval : s = u16le_pairs raw := by
        simp [unpack_64H, h] at hs
        exact hs.symm
      subst hsval
      exact u16le_pairs_bound raw hb
    · simp [unpack_64H, h] at hs
  refine ⟨hcore, ?_⟩
  intro merge raw s hb hs x hx
  have hfirst : (ws_step merge ws_init s).2 = s := rfl
  rw [hfirst] at hx
  exact hcore raw s hb hs x hx

/-- Witness for C10: the all-255 payload, whose decoded samples all
equal 65535, checked at the first sample of a read window and of a first
streaming cycle. -/
theorem C10_witness :
    (u16le_pairs (List.replicate 128 255)).getD 0 0 < 65536
    ∧ ((ws_step (fun a _ n => a ++ n) ws_init
        (u16le_pairs (List.replicate 128 255))).2).getD 0 0 < 65536 :=
  ⟨C10_samples_uint16.1 (List.replicate 128 255)
     (u16le_pairs (List.replicate 128 255))
     (fun b hb => by rw [List.eq_of_mem_replicate hb]; omega) rfl
     ((u16le_pairs (List.replicate 128 255)).getD 0 0) (by decide),
   C10_samples_uint16.2 (fun a _ n => a ++ n) (List.replicate 128 255)
     (u16le_pairs (List.replicate 128 255))
     (fun b hb => by rw [List.eq_of_mem_replicate hb]; omega) rfl
     (((ws_step (fun a _ n => a ++ n) ws_init
        (u16le_pairs (List.replicate 128 255))).2).getD 0 0) (by decide)⟩

/-! ### C7: find-by-name matching -/

/-- C7: `get_addresses_by_name` returns the distinct not-found outcome
precisely when no scanned device's trimmed, case-folded name equals the
trimmed, case-folded target, and otherwise the found outcome carrying
exactly the addresses of the matching devices; the names "Sensor",
" sensor " and "SENSOR" all match the target "sensor". -/
theorem C7_get_addresses_by_name_spec (name : String) (devices : List BLEDevice) :
    ((∀ d ∈ devices, normName (d.name.getD "") ≠ normName name) →
      get_addresses_by_name name devices
        = FindByNameResult.notFound "Dispositivo no encontrado")
    ∧ ((∃ d ∈ devices, normName (d.name.getD "") = normName name) →
      get_addresses_by_name name devices
        = FindByNameResult.found name
            ((devices.filter
              (fun d => normName (d.name.getD "") = normName name)).map
              (fun d => d.address)))
    ∧ get_addresses_by_name "sensor"
        [⟨some "Sensor", "A", none⟩, ⟨some " sensor ", "B", none⟩,
         ⟨some "SENSOR", "C", none⟩]
        = FindByNameResult.found "sensor" ["A", "B", "C"] := by
  refine ⟨?_, ?_, by decide⟩
  · intro h
    have hfil : devices.filter
        (fun d => normName (d.name.getD "") = normName name) = [] := by
      rw [List.filter_eq_nil_iff]
      intro d hd
      simpa using h d hd
    simp [get_addresses_by_name, hfil]
  · rintro ⟨d, hd, hmatch⟩
    have hmem : d ∈ devices.filter
        (fun d => normName (d.name.getD "") = normName name) :=
      List.mem_filter.mpr ⟨hd, by simpa using hmatch⟩
    have hne : ((devices.filter
        (fun d => normName (d.name.getD "") = normName name)).map
        (fun d => d.address)).isEmpty = false := by
      cases hfil : devices.filter
          (fun d => normName (d.name.getD "") = normName name) with
      | nil => rw [hfil] at hmem; simp at hmem
      | cons a l => simp [hfil]
    simp [get_addresses_by_name, hne]

/-- Witness for C7: a scan with no matching name, and one with a
matching name. -/
theorem C7_witness :
    get_addresses_by_name "sensor" [⟨some "Printer", "X", some 1⟩]
      = FindByNameResult.notFound "Dispositivo no encontrado"
    ∧ get_addresses_by_name "sensor" [⟨some " SeNsOr ", "A", none⟩]
      = FindByNameResult.found "sensor"
          ((([⟨some " SeNsOr ", "A", none⟩] : List BLEDevice).filter
            (fun d => normName (d.name.getD "") = normName "sensor")).map
            (fun d => d.address)) :=
  ⟨(C7_get_addresses_by_name_spec "sensor" [⟨some "Printer", "X", some 1⟩]).1
     (by decide),
   (C7_get_addresses_by_name_spec "sensor" [⟨some " SeNsOr ", "A", none⟩]).2.1
     ⟨⟨some " SeNsOr ", "A", none⟩, by simp, by decide⟩⟩

/-! ### C8: scan deduplication -/

/-- Invariant of the scan loop: every emitted entry has a non-empty
address that was not yet in `seen`, and is the image of the first raw
device in the remaining input bearing that address; the emitted
addresses are pairwise distinct. -/
theorem scan_loop_spec (l : List RawScanDevice) :
    ∀ seen : List String,
      (∀ e ∈ scan_loop l seen,
        e.address ∉ seen ∧ e.address ≠ ""
        ∧ ∃ d, l.find? (fun d => d.address == some e.address) = some d
            ∧ d.address = some e.address
            ∧ e = { name := pyOrStr d.name none, address := e.address,
                    rssi := d.rssi })
      ∧ ((scan_loop l seen).map (fun e => e.address)).Nodup := by
  induction l with
  | nil =>
    intro seen
    exact ⟨fun e he => absurd he (by simp [scan_loop]), by simp [scan_loop]⟩
  | cons d rest ih =>
    intro seen
    cases hd : d.address with
    | none =>
      have hstep : scan_loop (d :: rest) seen = scan_loop rest seen := by
        simp [scan_loop, hd]
      refine ⟨?_, by rw [hstep]; exact (ih seen).2⟩
      intro e he
      rw [hstep] at he
      obtain ⟨h1, h2, dd, hfind, haddr, heq⟩ := (ih seen).1 e he
      refine ⟨h1, h2, dd, ?_, haddr, heq⟩
      rw [List.find?_cons_of_neg, hfind]
      simp [hd]
    | some addr =>
      by_cases hskip : addr = "" ∨ addr ∈ seen
      · have hstep : scan_loop (d :: rest) seen = scan_loop rest seen := by
          simp only [scan_loop, hd]
          rw [if_pos hskip]
        refine ⟨?_, by rw [hstep]; exact (ih seen).2⟩
        intro e he
        rw [hstep] at he
        obtain ⟨h1, h2, dd, hfind, haddr, heq⟩ := (ih seen).1 e he
        have hne : addr ≠ e.address := by
          rcases hskip with h | h
          · intro hc
            exact h2 (by rw [← hc, h])
          · intro hc
            exact h1 (hc ▸ h)
        refine ⟨h1, h2, dd, ?_, haddr, heq⟩
        rw [List.find?_cons_of_neg, hfind]
        simp [hd, hne]
      · push_neg at hskip
        obtain ⟨hne_empty, hnot_seen⟩ := hskip
        have hstep : scan_loop (d :: rest) seen
            = { name := pyOrStr d.name none, address := addr, rssi := d.rssi } ::
              scan_loop rest (addr :: seen) := by
          simp only [scan_loop, hd]
          rw [if_neg (by push_neg; exact ⟨hne_empty, hnot_seen⟩)]
        constructor
        · intro e he
          rw [hstep] at he
          rcases List.mem_cons.mp he with rfl | he
          · refine ⟨hnot_seen, hne_empty, d, ?_, hd, rfl⟩
            rw [List.find?_cons_of_pos]
            simp [hd]
          · obtain ⟨h1, h2, dd, hfind, haddr, heq⟩ := (ih (addr :: seen)).1 e he
            have h1' : e.address ∉ seen := fun hc => h1 (List.mem_cons_of_mem _ hc)
            have hne : addr ≠ e.address := by
              intro hc
              exact h1 (by rw [← hc]; exact List.mem_cons_self _ _)
            refine ⟨h1', h2, dd, ?_, haddr, heq⟩
            rw [List.find?_cons_of_neg, hfind]
            simp [hd, hne]
        · rw [hstep]
          simp only [List.map_cons, List.nodup_cons]
          refine ⟨?_, (ih (addr :: seen)).2⟩
          intro hmem
          simp only [List.mem_map] at hmem
          obtain ⟨e, he, heq⟩ := hmem
          have h1 := ((ih (addr :: seen)).1 e he).1
          exact h1 (by rw [heq]; exact List.mem_cons_self _ _)

/-- C8: the scan output never contains two entries with the same
address; every entry is the image of the first raw device bearing its
address (first occurrence wins); a raw device with no address is
dropped, and a device with a fresh address but no name is still
included. -/
theorem C8_scan_ble_spec :
    (∀ devices : List RawScanDevice,
      ((scan_ble devices).map (fun e => e.address)).Nodup)
    ∧ (∀ devices : List RawScanDevice, ∀ e ∈ scan_ble devices,
        ∃ d, devices.find? (fun d => d.address == some e.address) = some d
          ∧ d.address = some e.address
          ∧ e = { name := pyOrStr d.name none, address := e.address,
                  rssi := d.rssi })
    ∧ (∀ (n : Option String) (r : Option Int) (rest : List RawScanDevice)
          (seen : List String),
        scan_loop ({ name := n, address := none, rssi := r } :: rest) seen
          = scan_loop rest seen)
    ∧ (∀ (r : Option Int) (addr : String) (rest : List RawScanDevice)
          (seen : List String), addr ≠ "" → addr ∉ seen →
        scan_loop ({ name := none, address := some addr, rssi := r } :: rest) seen
          = { name := none, address := addr, rssi := r } ::
              scan_loop rest (addr :: seen)) := by
  refine ⟨fun devices => (scan_loop_spec devices []).2,
    fun devices e he => ((scan_loop_spec devices []).1 e he).2.2,
    fun n r rest seen => by simp [scan_loop],
    fun r addr rest seen h1 h2 => by
      simp only [scan_loop]
      rw [if_neg (by push_neg; exact ⟨h1, h2⟩)]
      simp [pyOrStr]⟩

/-- Witness for C8: a concrete scan where a duplicate address, an
address-less device and a nameless device all occur. -/
theorem C8_witness :
    ((scan_ble [⟨some "a", some "X", none⟩, ⟨some "b", none, some 2⟩,
        ⟨some "c", some "X", some 3⟩]).map (fun e => e.address)).Nodup
    ∧ scan_loop [{ name := some "b", address := none, rssi := some 2 }] []
        = scan_loop [] []
    ∧ scan_loop [{ name := none, address := some "Y", rssi := none }] []
        = { name := none, address := "Y", rssi := none } :: scan_loop [] ["Y"] :=
  ⟨C8_scan_ble_spec.1 [⟨some "a", some "X", none⟩, ⟨some "b", none, some 2⟩,
      ⟨some "c", some "X", some 3⟩],
   C8_scan_ble_spec.2.2.1 (some "b") (some 2) [] [],
   C8_scan_ble_spec.2.2.2 none "Y" [] [] (by decide) (by decide)⟩

/-! ### C4: candidate ranking -/

theorem tupleLe_total (a b : Bool × Int) : tupleLe a b = true ∨ tupleLe b a = true := by
  obtain ⟨a1, a2⟩ := a
  obtain ⟨b1, b2⟩ := b
  unfold tupleLe
  cases a1 <;> cases b1 <;> simp <;> omega

theorem tupleLe_trans {a b c : Bool × Int}
    (h1 : tupleLe a b = true) (h2 : tupleLe b c = true) : tupleLe a c = true := by
  obtain ⟨a1, a2⟩ := a
  obtain ⟨b1, b2⟩ := b
  obtain ⟨c1, c2⟩ := c
  unfold tupleLe at h1 h2 ⊢
  cases a1 <;> cases b1 <;> cases c1 <;> simp_all <;> omega

theorem rssiLe_total (a b : BLEDevice) : rssiLe a b = true ∨ rssiLe b a = true :=
  tupleLe_total _ _

theorem rssiLe_trans {a b c : BLEDevice}
    (h1 : rssiLe a b = true) (h2 : rssiLe b c = true) : rssiLe a c = true :=
  tupleLe_trans h1 h2

theorem pyInsert_perm (le : α → α → Bool) (x : α) (l : List α) :
    List.Perm (pyInsert le x l) (x :: l) := by
  induction l with
  | nil => exact List.Perm.refl _
  | cons y ys ih =>
    by_cases h : le x y
    · simp [pyInsert, h]
    · simp only [pyInsert, h, if_false, Bool.false_eq_true]
      exact (ih.cons y).trans (List.Perm.swap x y ys)

theorem pyStableSort_perm (le : α → α → Bool) (l : List α) :
    List.Perm (pyStableSort le l) l := by
  induction l with
  | nil => exact List.Perm.refl _
  | cons x xs ih => exact (pyInsert_perm le x _).trans (ih.cons x)

theorem pyInsert_pairwise (le : α → α → Bool)
    (htot : ∀ a b, le a b = true ∨ le b a = true)
    (htrans : ∀ a b c, le a b = true → le b c = true → le a c = true)
    (x : α) (l : List α) (h : l.Pairwise (fun a b => le a b = true)) :
    (pyInsert le x l).Pairwise (fun a b => le a b = true) := by
  induction l with
  | nil => simp [pyInsert]
  | cons y ys ih =>
    rcases List.pairwise_cons.mp h with ⟨hy, hys⟩
    by_cases hxy : le x y
    · simp only [pyInsert, hxy, if_true]
      refine List.pairwise_cons.mpr ⟨?_, h⟩
      intro z hz
      rcases List.mem_cons.mp hz with rfl | hz
      · exact hxy
      · exact htrans x y z hxy (hy z hz)
    · simp only [pyInsert, hxy, if_false, Bool.false_eq_true]
      refine List.pairwise_cons.mpr ⟨?_, ih hys⟩
      intro z hz
      rcases List.mem_cons.mp ((pyInsert_perm le x ys).mem_iff.mp hz) with hzx | hz'
      · cases htot x y with
        | inl h' => exact absurd h' hxy
        | inr h' => rw [hzx]; exact h'
      · exact hy z hz'

theorem pyStableSort_pairwise (le : α → α → Bool)
    (htot : ∀ a b, le a b = true ∨ le b a = true)
    (htrans : ∀ a b c, le a b = true → le b c = true → le a c = true)
    (l : List α) :
    (pyStableSort le l).Pairwise (fun a b => le a b = true) := by
  induction l with
  | nil => simp [pyStableSort]
  | cons x xs ih => exact pyInsert_pairwise le htot htrans x _ ih

theorem pyInsert_filter_pos (le : α → α → Bool) (p : α → Bool) (x : α)
    (l : List α) (hx : p x = true)
    (hmin : ∀ y ∈ l, p y = true → le x y = true) :
    (pyInsert le x l).filter p = x :: l.filter p := by
  induction l with
  | nil => simp [pyInsert, hx]
  | cons y ys ih =>
    by_cases hxy : le x y
    · simp [pyInsert, hxy, hx]
    · have hpy : p y = false := by
        by_contra hc
        exact hxy (hmin y (List.mem_cons_self _ _)
          (by simpa using hc))
      simp only [pyInsert, hxy, if_false, Bool.false_eq_true, List.filter_cons,
        hpy]
      exact ih (fun z hz hp => hmin z (List.mem_cons_of_mem _ hz) hp)

theorem pyInsert_filter_neg (le : α → α → Bool) (p : α → Bool) (x : α)
    (l : List α) (hx : p x = false) :
    (pyInsert le x l).filter p = l.filter p := by
  induction l with
  | nil => simp [pyInsert, hx]
  | cons y ys ih =>
    by_cases hxy : le x y
    · simp [pyInsert, hxy, List.filter_cons, hx]
    · simp only [pyInsert, hxy, if_false, Bool.false_eq_true, List.filter_cons]
      rw [ih]

theorem pyStableSort_filter_stable (le : α → α → Bool) (p : α → Bool)
    (hkey : ∀ x y, p x = true → p y = true → le x y = true) (l : List α) :
    (pyStableSort le l).filter p = l.filter p := by
  induction l with
  | nil => rfl
  | cons x xs ih =>
    by_cases hx : p x
    · rw [pyStableSort, pyInsert_filter_pos le p x _ hx ?_, ih,
        List.filter_cons, if_pos hx]
      intro y hy hpy
      exact hkey x y hx hpy
    · rw [pyStableSort,
        pyInsert_filter_neg le p x _ (by simpa using hx), ih,
        List.filter_cons]
      simp [hx]

/-- C4: `sort_matches` is a permutation of the matches in which every
earlier entry is `rssiLe` every later one; reading `rssiLe` off,
earlier-known rssi is at least later-known rssi (descending) and no
known-rssi device follows an unknown-rssi one; the unknown-rssi devices
keep their original relative order (stable); and the concrete example
with strengths [-40, -70, null, -55] ranks as [-40, -55, -70, null]. -/
theorem C4_sort_matches_spec :
    (∀ l : List BLEDevice, List.Perm (sort_matches l) l)
    ∧ (∀ l : List BLEDevice,
        (sort_matches l).Pairwise (fun a b => rssiLe a b = true))
    ∧ (∀ a b : BLEDevice, rssiLe a b = true →
        (a.rssi.isNone → b.rssi.isNone)
        ∧ ∀ ra rb : Int, a.rssi = some ra → b.rssi = some rb → rb ≤ ra)
    ∧ (∀ l : List BLEDevice,
        (sort_matches l).filter (fun d => d.rssi.isNone)
          = l.filter (fun d => d.rssi.isNone))
    ∧ (sort_matches
        [⟨some "s", "A", some (-40)⟩, ⟨some "s", "B", some (-70)⟩,
         ⟨some "s", "C", none⟩, ⟨some "s", "D", some (-55)⟩]).map
        (fun d => d.rssi)
        = [some (-40), some (-55), some (-70), none] := by
  refine ⟨fun l => pyStableSort_perm rssiLe l,
    fun l => pyStableSort_pairwise rssiLe rssiLe_total
      (fun a b c => rssiLe_trans) l,
    ?_,
    fun l => pyStableSort_filter_stable rssiLe (fun d => d.rssi.isNone)
      ?_ l,
    by decide⟩
  · intro a b hle
    constructor
    · intro ha
      cases hb : b.rssi with
      | none => rfl
      | some rb =>
        rw [Option.isNone_iff_eq_none] at ha
        simp [rssiLe, tupleLe, rssi_sort_key, ha, hb] at hle
    · intro ra rb ha hb
      simp only [rssiLe, tupleLe, rssi_sort_key, ha, hb, Option.isNone_some,
        Option.getD_some] at hle
      simp at hle
      omega
  · intro x y hx hy
    rw [Option.isNone_iff_eq_none] at hx hy
    simp [rssiLe, tupleLe, rssi_sort_key, hx, hy]

/-- Witness for C4: the permutation and stability parts applied at a
concrete list, and the comparison interpretation at concrete devices. -/
theorem C4_witness :
    List.Perm (sort_matches [⟨none, "C", none⟩, ⟨none, "A", some (-40)⟩])
      [⟨none, "C", none⟩, ⟨none, "A", some (-40)⟩]
    ∧ (⟨none, "D", none⟩ : BLEDevice).rssi.isNone = true
    ∧ ((-55 : Int) ≤ -40)
    ∧ (sort_matches [⟨none, "C", none⟩, ⟨none, "A", some (-40)⟩]).filter
        (fun d => d.rssi.isNone)
      = [⟨none, "C", none⟩, ⟨none, "A", some (-40)⟩].filter
        (fun d => d.rssi.isNone) :=
  ⟨C4_sort_matches_spec.1 [⟨none, "C", none⟩, ⟨none, "A", some (-40)⟩],
   (C4_sort_matches_spec.2.2.1 ⟨none, "C", none⟩ ⟨none, "D", none⟩
     (by decide)).1 (by decide),
   (C4_sort_matches_spec.2.2.1 ⟨none, "A", some (-40)⟩ ⟨none, "B", some (-55)⟩
     (by decide)).2 (-40) (-55) rfl rfl,
   C4_sort_matches_spec.2.2.2.1 [⟨none, "C", none⟩, ⟨none, "A", some (-40)⟩]⟩

/-! ### C3: first-success-wins with accumulated failures -/

theorem try_candidates_all_fail (name : String)
    (attempt : BLEDevice → AttemptResult) :
    ∀ (cands : List BLEDevice) (attempted errors : List String),
      (∀ d ∈ cands, attempt d ≠ AttemptResult.ok true) →
      try_candidates name attempt cands attempted errors
        = (ConnectByNameResult.failed
            "No se pudo conectar a ningún dispositivo con ese nombre" name
            (attempted ++ cands.map (fun d => d.address))
            (if (errors ++ cands.filterMap
                (fun d => attempt_error d.address (attempt d))).isEmpty
             then none
             else some (errors ++ cands.filterMap
                (fun d => attempt_error d.address (attempt d)))),
           attempted ++ cands.map (fun d => d.address))
  | [], attempted, errors, _ => by
    simp [try_candidates]
  | dev :: rest, attempted, errors, h => by
    have hdev := h dev (List.mem_cons_self _ _)
    have hrest : ∀ d ∈ rest, attempt d ≠ AttemptResult.ok true :=
      fun d hd => h d (List.mem_cons_of_mem _ hd)
    cases ha : attempt dev with
    | ok b =>
      cases b with
      | true => exact absurd ha hdev
      | false =>
        rw [try_candidates]
        simp only [ha]
        rw [try_candidates_all_fail name attempt rest _ _ hrest]
        simp [attempt_error, ha, List.filterMap_cons, List.append_assoc]
    | raised t m =>
      rw [try_candidates]
      simp only [ha]
      rw [try_candidates_all_fail name attempt rest _ _ hrest]
      simp [attempt_error, ha, List.filterMap_cons, List.append_assoc]

theorem try_candidates_first_success (name : String)
    (attempt : BLEDevice → AttemptResult) :
    ∀ (pre : List BLEDevice) (d : BLEDevice) (post : List BLEDevice)
      (attempted errors : List String),
      (∀ p ∈ pre, attempt p ≠ AttemptResult.ok true) →
      attempt d = AttemptResult.ok true →
      try_candidates name attempt (pre ++ d :: post) attempted errors
        = (ConnectByNameResult.success "Conexión persistente establecida" name
            d.address true d.rssi,
           attempted ++ pre.map (fun p => p.address) ++ [d.address])
  | [], d, post, attempted, errors, _, hd => by
    rw [List.nil_append, try_candidates]
    simp [hd]
  | p :: pre, d, post, attempted, errors, hpre, hd => by
    have hp := hpre p (List.mem_cons_self _ _)
    have hpre' : ∀ q ∈ pre, attempt q ≠ AttemptResult.ok true :=
      fun q hq => hpre q (List.mem_cons_of_mem _ hq)
    cases ha : attempt p with
    | ok b =>
      cases b with
      | true => exact absurd ha hp
      | false =>
        rw [List.cons_append, try_candidates]
        simp only [ha]
        rw [try_candidates_first_success name attempt pre d post _ _ hpre' hd]
        simp [List.append_assoc]
    | raised t m =>
      rw [List.cons_append, try_candidates]
      simp only [ha]
      rw [try_candidates_first_success name attempt pre d post _ _ hpre' hd]
      simp [List.append_assoc]

/-- C3: the candidate loop succeeds on the first candidate whose connect
returns `True` — having attempted exactly the candidates up to and
including it, so no later candidate is tried — and when every candidate
fails (raises, or connects with non-live state) it returns the failure
outcome carrying the target name, all attempted addresses in ranked
order, and one accumulated error message per failed candidate, the
error list being `None` when empty. -/
theorem C3_try_candidates_spec (name : String)
    (attempt : BLEDevice → AttemptResult) :
    (∀ (pre : List BLEDevice) (d : BLEDevice) (post : List BLEDevice),
      (∀ p ∈ pre, attempt p ≠ AttemptResult.ok true) →
      attempt d = AttemptResult.ok true →
      try_candidates name attempt (pre ++ d :: post) [] []
        = (ConnectByNameResult.success "Conexión persistente establecida" name
            d.address true d.rssi,
           pre.map (fun p => p.address) ++ [d.address]))
    ∧ (∀ cands : List BLEDevice,
      (∀ d ∈ cands, attempt d ≠ AttemptResult.ok true) →
      try_candidates name attempt cands [] []
        = (ConnectByNameResult.failed
            "No se pudo conectar a ningún dispositivo con ese nombre" name
            (cands.map (fun d => d.address))
            (if (cands.filterMap
                (fun d => attempt_error d.address (attempt d))).isEmpty
             then none
             else some (cands.filterMap
                (fun d => attempt_error d.address (attempt d)))),
           cands.map (fun d => d.address))) := by
  constructor
  · intro pre d post hpre hd
    have h := try_candidates_first_success name attempt pre d post [] [] hpre hd
    simpa using h
  · intro cands hfail
    have h := try_candidates_all_fail name attempt cands [] [] hfail
    simpa using h

/-- Witness for C3: three ranked candidates where the first raises, the
second connects, the third is never tried; and a two-candidate run where
one raises and one reports non-live state. -/
theorem C3_witness :
    try_candidates "pine"
      (fun d => if d.address = "B" then AttemptResult.ok true
                else AttemptResult.raised "BleakError" "timeout")
      ([⟨some "pine", "A", some (-40)⟩] ++ ⟨some "pine", "B", some (-55)⟩ ::
        [⟨some "pine", "C", none⟩]) [] []
      = (ConnectByNameResult.success "Conexión persistente establecida" "pine"
          "B" true (some (-55)), ["A", "B"])
    ∧ try_candidates "pine"
        (fun d => if d.address = "A" then AttemptResult.raised "BleakError" "timeout"
                  else AttemptResult.ok false)
        [⟨some "pine", "A", some (-40)⟩, ⟨some "pine", "B", none⟩] [] []
      = (ConnectByNameResult.failed
          "No se pudo conectar a ningún dispositivo con ese nombre" "pine"
          ["A", "B"]
          (some ["A: BleakError: timeout",
                 "B: connect ok pero is_connected=False"]),
         ["A", "B"]) := by
  constructor
  · have h := (C3_try_candidates_spec "pine"
      (fun d => if d.address = "B" then AttemptResult.ok true
                else AttemptResult.raised "BleakError" "timeout")).1
      [⟨some "pine", "A", some (-40)⟩] ⟨some "pine", "B", some (-55)⟩
      [⟨some "pine", "C", none⟩] (by decide) (by decide)
    simpa using h
  · have h := (C3_try_candidates_spec "pine"
      (fun d => if d.address = "A" then AttemptResult.raised "BleakError" "timeout"
                else AttemptResult.ok false)).2
      [⟨some "pine", "A", some (-40)⟩, ⟨some "pine", "B", none⟩] (by decide)
    simpa using h

end BLEApi
